import Mathlib

set_option maxRecDepth 16384

/-!
Verification of the summarization pipeline of `news-ai-agent`.

This file gives a shallow embedding (in Lean 4) of the core of the
summarization pipeline of the repository:

* `src/backend/src/handlers/summarizeNews.ts` — the orchestrator
  (`summarizeImpl`), its input validation, cache-key derivation
  (`makeSummCacheKey`), cache read/write guards and fallback logic;
* `src/backend/src/summarize/styleAwareFallback.ts` — the deterministic
  extractive formatter;
* `src/summarize/normalizeBlocks.ts` — the block normalizer
  (`normalizeBlocksForCache`);
* `src/lib/env.ts` — `sha256Hex` (modelled by a full executable SHA-256).

Conventions of the embedding:

* JavaScript strings are Lean `String`s; `String.prototype.trim` is
  modelled by `trimJs` (JS whitespace set restricted to the common ASCII
  whitespace characters, which is all the code under verification ever
  produces). The ordering induced by `localeCompare` is treated
  generically: ICU collation is a total preorder but can compare
  *distinct* strings as equal (canonically equivalent sequences,
  collation-ignorable characters), so the key-stability theorem
  quantifies over an arbitrary transitive and total comparator and
  assumes only that no two relevant items tie without being equal. The
  executable instance used for concrete runs is code-point order; the
  concrete counterexample relies only on a tie between *equal* strings,
  which holds in every collation.
* JavaScript numbers appearing as data (the `idx` field of loose blocks)
  are modelled by `JsNum` — either a non-finite value (`nan`, `inf`,
  `ninf`) or a finite value represented as a rational; the code under
  verification only tests finiteness and sign and passes values through.
* Effects are made explicit: the cache read result, the model-call
  outcome (success with a parsed JSON value, or failure covering
  transport errors, timeouts and JSON-parse errors) and the clock are
  parameters of the embedded orchestrator; the cache write is returned
  as data.
* The host `Date` parser (used only to reformat optional `date` /
  `publishedAt` fields) is modelled for ISO `YYYY-MM-DD` calendar dates;
  no claim in this development depends on date parsing.
-/

namespace NewsAgent

/-! ### SHA-256 (models `sha256Hex` of `src/lib/env.ts`, which hashes the
UTF-8 bytes of its input with SHA-256 and renders the digest as lowercase
hex) -/

namespace SHA256

/-- The word modulus, 2^32. -/
def M32 : Nat := 4294967296

/-- Rotate a 32-bit word right by `n` bits. -/
def rotr (n x : Nat) : Nat := ((x >>> n) ||| (x <<< (32 - n))) % M32

def shr (n x : Nat) : Nat := x >>> n

def bigSigma0 (x : Nat) : Nat := (rotr 2 x) ^^^ (rotr 13 x) ^^^ (rotr 22 x)
def bigSigma1 (x : Nat) : Nat := (rotr 6 x) ^^^ (rotr 11 x) ^^^ (rotr 25 x)
def smallSigma0 (x : Nat) : Nat := (rotr 7 x) ^^^ (rotr 18 x) ^^^ (shr 3 x)
def smallSigma1 (x : Nat) : Nat := (rotr 17 x) ^^^ (rotr 19 x) ^^^ (shr 10 x)

def ch (x y z : Nat) : Nat := (x &&& y) ^^^ ((x ^^^ 4294967295) &&& z)
def maj (x y z : Nat) : Nat := (x &&& y) ^^^ (x &&& z) ^^^ (y &&& z)

/-- The 64 round constants of FIPS 180-4, in decimal. -/
def K : List Nat :=
  [1116352408, 1899447441, 3049323471, 3921009573, 961987163, 1508970993,
   2453635748, 2870763221, 3624381080, 310598401, 607225278, 1426881987,
   1925078388, 2162078206, 2614888103, 3248222580, 3835390401, 4022224774,
   264347078, 604807628, 770255983, 1249150122, 1555081692, 1996064986,
   2554220882, 2821834349, 2952996808, 3210313671, 3336571891, 3584528711,
   113926993, 338241895, 666307205, 773529912, 1294757372, 1396182291,
   1695183700, 1986661051, 2177026350, 2456956037, 2730485921, 2820302411,
   3259730800, 3345764771, 3516065817, 3600352804, 4094571909, 275423344,
   430227734, 506948616, 659060556, 883997877, 958139571, 1322822218,
   1537002063, 1747873779, 1955562222, 2024104815, 2227730452, 2361852424,
   2428436474, 2756734187, 3204031479, 3329325298]

/-- The initial hash state of FIPS 180-4, in decimal. -/
def H0 : List Nat :=
  [1779033703, 3144134277, 1013904242, 2773480762,
   1359893119, 2600822924, 528734635, 1541459225]

/-- Big-endian 8-byte encoding of the bit length. -/
def lenBytes (n : Nat) : List Nat :=
  [(n >>> 56) % 256, (n >>> 48) % 256, (n >>> 40) % 256, (n >>> 32) % 256,
   (n >>> 24) % 256, (n >>> 16) % 256, (n >>> 8) % 256, n % 256]

/-- Standard SHA-256 padding: `0x80`, zeros to 56 mod 64, 64-bit length. -/
def padMsg (msg : List Nat) : List Nat :=
  let len := msg.length
  let zeros := (64 + 55 - (len % 64)) % 64
  msg ++ [0x80] ++ List.replicate zeros 0 ++ lenBytes (len * 8)

/-- Split a padded message into 64-byte blocks (fuel-driven, structurally
recursive so that concrete instances reduce in the kernel). -/
def toBlocksN : Nat → List Nat → List (List Nat)
  | 0, _ => []
  | n + 1, l => l.take 64 :: toBlocksN n (l.drop 64)

def toBlocks (l : List Nat) : List (List Nat) := toBlocksN (l.length / 64) l

/-- Reassemble bytes into big-endian 32-bit words. -/
def toWords : List Nat → List Nat
  | b0 :: b1 :: b2 :: b3 :: rest =>
      (((b0 * 256 + b1) * 256 + b2) * 256 + b3) :: toWords rest
  | _ => []

/-- One step of the message-schedule extension. -/
def stepW (w : List Nat) : List Nat :=
  let t := w.length
  let x := (smallSigma1 (w.getD (t - 2) 0) + w.getD (t - 7) 0 +
            smallSigma0 (w.getD (t - 15) 0) + w.getD (t - 16) 0) % M32
  w ++ [x]

def extendW : Nat → List Nat → List Nat
  | 0, w => w
  | n + 1, w => extendW n (stepW w)

/-- One compression round on the 8-word state. -/
def compressRound (st : List Nat) (k w : Nat) : List Nat :=
  match st with
  | [a, b, c, d, e, f, g, h] =>
      let t1 := (h + bigSigma1 e + ch e f g + k + w) % M32
      let t2 := (bigSigma0 a + maj a b c) % M32
      [(t1 + t2) % M32, a, b, c, (d + t1) % M32, e, f, g]
  | _ => st

/-- Process one 64-byte block. -/
def compressBlock (h : List Nat) (block : List Nat) : List Nat :=
  let w := extendW 48 (toWords block)
  let fin := (K.zip w).foldl (fun st p => compressRound st p.1 p.2) h
  (h.zip fin).map (fun p => (p.1 + p.2) % M32)

/-- Digest of a byte sequence: SHA-256 as the list of 8 final state words. -/
def sha256Words (msg : List Nat) : List Nat :=
  (toBlocks (padMsg msg)).foldl compressBlock H0

def hexDigit (n : Nat) : Char :=
  "0123456789abcdef".data.getD n '0'

/-- Lowercase hex rendering of a 32-bit word. -/
def wordHex (w : Nat) : String :=
  ⟨[hexDigit ((w >>> 28) % 16), hexDigit ((w >>> 24) % 16),
    hexDigit ((w >>> 20) % 16), hexDigit ((w >>> 16) % 16),
    hexDigit ((w >>> 12) % 16), hexDigit ((w >>> 8) % 16),
    hexDigit ((w >>> 4) % 16), hexDigit (w % 16)]⟩

/-- The UTF-8 encoding of a code point. -/
def utf8Bytes (c : Nat) : List Nat :=
  if c < 0x80 then [c]
  else if c < 0x800 then [0xc0 + c / 64, 0x80 + c % 64]
  else if c < 0x10000 then
    [0xe0 + c / 4096, 0x80 + (c / 64) % 64, 0x80 + c % 64]
  else
    [0xf0 + c / 262144, 0x80 + (c / 4096) % 64, 0x80 + (c / 64) % 64, 0x80 + c % 64]

/-- The UTF-8 bytes of a string (what the Node `createHash(...).update(string)`
hashes by default). -/
def strBytes (s : String) : List Nat := (s.data.map (fun c => utf8Bytes c.toNat)).flatten

end SHA256

/-- Embeds `sha256Hex` (src/lib/env.ts): SHA-256 of the UTF-8 bytes of the
input, rendered as a 64-character lowercase hex string. -/
def sha256Hex (s : String) : String :=
  String.join ((SHA256.sha256Words (SHA256.strBytes s)).map SHA256.wordHex)

/-! ### JavaScript string and number helpers -/

/-- The canonical embedding of a natural number into the rationals, in
constructor form (models a non-negative integral JS number). -/
def ratOfNat (n : Nat) : ℚ := ⟨(n : Int), 1, one_ne_zero, Nat.coprime_one_right _⟩

/-- Code-point lexicographic comparison of strings, as character lists. -/
def strLeChars : List Char → List Char → Bool
  | [], _ => true
  | _ :: _, [] => false
  | a :: as, b :: bs => if a = b then strLeChars as bs else decide (a < b)

def strLe (s t : String) : Bool := strLeChars s.data t.data

/-- ASCII-range lowercasing (`String.prototype.toLowerCase`; the verified
code only lowercases ASCII enumeration labels and 2-letter language
codes). -/
def toLowerJs (s : String) : String := ⟨s.data.map Char.toLower⟩

/-- The JS whitespace test, restricted to the characters the verified code can
produce (ASCII whitespace plus NBSP and BOM). -/
def isJsWs (c : Char) : Bool :=
  c = ' ' || c = '\t' || c = '\n' || c = '\r' ||
  c = '\x0b' || c = '\x0c' || c = ' ' || c = '﻿'

def trimJsList (l : List Char) : List Char :=
  ((l.dropWhile isJsWs).reverse.dropWhile isJsWs).reverse

/-- Embeds `String.prototype.trim`. -/
def trimJs (s : String) : String := ⟨trimJsList s.data⟩

/-- Splits into maximal non-whitespace runs; embeds
`text.split(/\s+/).filter(Boolean)`. -/
def splitWsAux : List Char → List Char → List (List Char)
  | [], acc => if acc.isEmpty then [] else [acc.reverse]
  | c :: cs, acc =>
    if isJsWs c then
      if acc.isEmpty then splitWsAux cs [] else acc.reverse :: splitWsAux cs []
    else splitWsAux cs (c :: acc)

def jsWords (s : String) : List String := (splitWsAux s.data []).map String.mk

/-- A JavaScript number as it occurs in untrusted JSON data: non-finite,
or a finite value (modelled as a rational; the verified code only tests
finiteness and sign and passes finite values through unchanged). -/
inductive JsNum where
  | nan
  | inf
  | ninf
  | num (q : ℚ)
deriving DecidableEq, Repr

/-- Embeds `Number.isFinite`. -/
def JsNum.isFinite : JsNum → Bool
  | .num _ => true
  | _ => false

def pad2 (n : Nat) : String := if n < 10 then "0" ++ toString n else toString n

/-- Models the host `new Date(s)` parser for ISO calendar dates
(`YYYY-MM-DD`); other host-specific date formats are out of scope — no
claim in this development depends on date parsing. -/
def jsDateParse (s : String) : Option (Nat × Nat × Nat) :=
  match s.data with
  | [y1, y2, y3, y4, h1, m1, m2, h2, d1, d2] =>
    if y1.isDigit && y2.isDigit && y3.isDigit && y4.isDigit &&
       h1 = '-' && m1.isDigit && m2.isDigit && h2 = '-' && d1.isDigit && d2.isDigit then
      let y := (y1.toNat - 48) * 1000 + (y2.toNat - 48) * 100 + (y3.toNat - 48) * 10 + (y4.toNat - 48)
      let m := (m1.toNat - 48) * 10 + (m2.toNat - 48)
      let d := (d1.toNat - 48) * 10 + (d2.toNat - 48)
      if 1 ≤ m && m ≤ 12 && 1 ≤ d && d ≤ 31 then some (y, m, d) else none
    else none
  | _ => none

def fmtYMD (ymd : Nat × Nat × Nat) : String :=
  toString ymd.1 ++ "-" ++ pad2 ymd.2.1 ++ "-" ++ pad2 ymd.2.2

/-! ### Data model -/

/-- Embeds `SummaryStyle` of `shared/types.ts`. -/
inductive SummaryStyle where
  | balanced
  | headlineFirst
  | keyPoints
  | risks
deriving DecidableEq, Repr

/-- Embeds the orchestrator mode (`"fast" | "quality"`). -/
inductive Mode where
  | fast
  | quality
deriving DecidableEq, Repr

/-- Backend `NewsItem` (summarizeNews.ts): all four key fields present.
Items of this shape are exactly what survives `compactItems`. -/
structure NewsItem where
  title : String
  url : String
  source : String
  publishedAt : String
  description : Option String
deriving DecidableEq, Repr

/-- Embeds `NewsItem` of `shared/types.ts` as consumed by the extractive
formatter (`source` and `publishedAt` optional there). -/
structure SharedNewsItem where
  title : String
  url : String
  source : Option String
  publishedAt : Option String
deriving DecidableEq, Repr

def toSharedItem (i : NewsItem) : SharedNewsItem :=
  ⟨i.title, i.url, some i.source, some i.publishedAt⟩

/-- An incoming, untrusted item of the request body: every field may be
absent. -/
structure NewsItemIn where
  title : Option String
  url : Option String
  source : Option String
  publishedAt : Option String
  description : Option String
deriving DecidableEq, Repr

/-! ### Extractive formatter (`styleAwareFallback.ts`) -/

/-- Embeds `clampWords`: trim to at most `maxWords` whitespace-separated
words, appending an ellipsis if truncated; unclamped input is returned
verbatim. -/
def clampWords (input : Option String) (maxWords : Nat) : String :=
  let text := input.getD ("Untitled")
  let words := jsWords text
  if words.length ≤ maxWords then text
  else String.intercalate (" ") (words.take maxWords) ++ "…"

/-- Embeds `shortDate`: `YYYY-MM-DD` from ISO, `none` if invalid or
missing. -/
def shortDate (iso : Option String) : Option String :=
  match iso with
  | none => none
  | some s => if s = "" then none else (jsDateParse s).map fmtYMD

/-- Embeds `srcSuffix`. -/
def srcSuffix (src : Option String) : String :=
  match src with
  | some s => if s = "" then "" else " — " ++ s
  | none => ""

def formatHeadline (i : Nat) (it : SharedNewsItem) : String :=
  "[" ++ toString (i + 1) ++ "] " ++ clampWords (some it.title) 12 ++
    srcSuffix it.source ++ " » " ++ it.url

def formatKeyPoint (i : Nat) (it : SharedNewsItem) : String :=
  let meta := String.intercalate (" · ")
    (([it.source, shortDate it.publishedAt].filterMap id).filter (· ≠ ""))
  "[" ++ toString (i + 1) ++ "] " ++ clampWords (some it.title) 18 ++
    (if meta = "" then "" else " — " ++ meta) ++ " » " ++ it.url

/-- Note the line marker is U+26A0 followed by the text variation
selector U+FE0E (two code points), unlike the plain U+26A0 of the
header. -/
def formatRisk (i : Nat) (it : SharedNewsItem) : String :=
  "⚠︎ [" ++ toString (i + 1) ++ "] " ++ clampWords (some it.title) 14 ++
    srcSuffix it.source ++ " » " ++ it.url

def formatBalanced (i : Nat) (it : SharedNewsItem) : String :=
  "[" ++ toString (i + 1) ++ "] " ++ clampWords (some it.title) 16 ++
    srcSuffix it.source ++ " » " ++ it.url

/-- Embeds `styleAwareFallback`. -/
def styleAwareFallback (items : List SharedNewsItem) (lang : String)
    (style : SummaryStyle) : String :=
  let header :=
    match style with
    | .headlineFirst =>
        "Headlines digest (" ++ lang ++ ") — top " ++ toString items.length ++ " item(s):"
    | .keyPoints =>
        "Key points (" ++ lang ++ ") — facts & dates across " ++ toString items.length ++ " item(s):"
    | .risks =>
        "⚠ Risk scan (" ++ lang ++ ") — review of " ++ toString items.length ++ " item(s):"
    | .balanced =>
        "Balanced summary (" ++ lang ++ ") — " ++ toString items.length ++ " item(s):"
  let sliceCount :=
    match style with
    | .risks => min items.length 6
    | .headlineFirst => min items.length 8
    | .keyPoints => min items.length 8
    | .balanced => min items.length 10
  let picked := items.take sliceCount
  let lines := picked.mapIdx fun i it =>
    match style with
    | .headlineFirst => formatHeadline i it
    | .keyPoints => formatKeyPoint i it
    | .risks => formatRisk i it
    | .balanced => formatBalanced i it
  let outro :=
    match style with
    | .headlineFirst => "— End of headlines —"
    | .keyPoints => "— End of key points —"
    | .risks => "— Risk scan complete —"
    | .balanced => "— End of summary —"
  header ++ "\n\n" ++ String.intercalate ("\n") lines ++ "\n\n" ++ outro

/-! ### Block normalizer (`normalizeBlocks.ts`) -/

/-- Embeds `CacheBlockKind` of `types.cache.ts`. -/
inductive CacheBlockKind where
  | headline
  | keyPoint
  | risk
  | balanced
deriving DecidableEq, Repr

/-- Embeds `CacheBlock` of `types.cache.ts` (`idx` is a JS number there; by
construction of the normalizer it is always finite, so it is carried as a
rational here). -/
structure CacheBlock where
  kind : CacheBlockKind
  idx : ℚ
  title : String
  url : String
  source : Option String
  date : Option String
  facts : Option (List String)
deriving DecidableEq, Repr

/-- Embeds `LooseBlock` of `normalizeBlocks.ts`: an untrusted candidate block. -/
structure LooseBlock where
  kind : Option String
  idx : Option JsNum
  title : Option String
  url : Option String
  source : Option String
  date : Option String
  facts : Option (List String)
deriving DecidableEq, Repr

def defaultKindForStyle (style : SummaryStyle) : CacheBlockKind :=
  match style with
  | .headlineFirst => .headline
  | .keyPoints => .keyPoint
  | .risks => .risk
  | .balanced => .balanced

/-- Embeds `normalizeDate`: ensure `YYYY-MM-DD` or drop. -/
def normalizeDate (s : Option String) : Option String :=
  match s with
  | none => none
  | some t => if t = "" then none else (jsDateParse t).map fmtYMD

/-- Embeds `normalizeKind` (case-insensitive alias matching). -/
def normalizeKind (raw : Option String) (fallback : CacheBlockKind) : CacheBlockKind :=
  let k := toLowerJs (raw.getD (""))
  if k = "headline" || k = "headline-first" then .headline
  else if k = "keypoint" || k = "key-points" || k = "key_points" then .keyPoint
  else if k = "risk" || k = "risks" then .risk
  else if k = "balanced" then .balanced
  else fallback

/-- The per-entry normalization performed inside the loop of
`normalizeBlocksForCache` for an entry at 0-based position `i`. -/
def normEntry (style : SummaryStyle) (i : Nat) (b : LooseBlock) : CacheBlock :=
  { kind := normalizeKind b.kind (defaultKindForStyle style)
    idx := match b.idx with
           | some (.num q) => if 0 < q then q else ratOfNat (i + 1)
           | _ => ratOfNat (i + 1)
    title := let t := trimJs (b.title.getD ("Untitled"))
             if t = "" then "Untitled" else t
    url := trimJs (b.url.getD (""))
    source := b.source.bind fun s => let t := trimJs s; if t = "" then none else some t
    date := normalizeDate b.date
    facts := b.facts.map fun fs => (fs.filter fun x => !(trimJs x).isEmpty).map trimJs }

/-- The hard rejection test: the trimmed `url` of a candidate is truthy
(`if (!url) continue`). -/
def goodUrl (b : LooseBlock) : Bool := !(trimJs (b.url.getD (""))).isEmpty

/-- The loop of `normalizeBlocksForCache`: entries whose trimmed `url` is
empty are skipped, the rest are normalized; `i` is the 0-based position
in the original array. -/
def normalizeGo (style : SummaryStyle) : List LooseBlock → Nat → List CacheBlock
  | [], _ => []
  | b :: rest, i =>
    if goodUrl b then normEntry style i b :: normalizeGo style rest (i + 1)
    else normalizeGo style rest (i + 1)

/-- Embeds `normalizeBlocksForCache`; `none` input models a non-array
value, `none` output models `undefined` (nothing survived). -/
def normalizeBlocksForCache (blocks : Option (List LooseBlock)) (style : SummaryStyle) :
    Option (List CacheBlock) :=
  match blocks with
  | none => none
  | some bs =>
    let out := normalizeGo style bs 0
    if out.isEmpty then none else some out

/-! ### Cache key derivation (`makeSummCacheKey`) -/

/-- Embeds `process.env.SUMM_V ?? "7"`, modelled at its default. -/
def SUMM_V : String := "7"

/-- The minimal stable projection `{t, u}` of an item. -/
structure ProjItem where
  t : String
  u : String
deriving DecidableEq, Repr

/-- The sort key `a.u + a.t` of the comparator. -/
def projKey (p : ProjItem) : String := p.u ++ p.t

/-- A code-point instance of the comparator
`(a.u + a.t).localeCompare(b.u + b.t)`, used only for concrete
evaluation (the counterexample and the witness). The stability theorem
does not depend on this instance: ICU `localeCompare` can also tie on
distinct strings (canonical equivalents, collation-ignorable
characters), so the theorem is generic in the comparator; code-point
order ties exactly on equal strings, and equal strings tie in every
collation. -/
def itemLe (a b : ProjItem) : Bool := strLe (projKey a) (projKey b)

def jsonEscapeChar (c : Char) : String :=
  if c = '"' then "\\\"" else if c = '\\' then "\\\\"
  else if c = '\n' then "\\n" else if c = '\r' then "\\r" else if c = '\t' then "\\t"
  else String.singleton c

/-- A JSON string literal as produced by `JSON.stringify` (escaping
modelled for the characters the pipeline can produce). -/
def jsonStr (s : String) : String :=
  "\"" ++ String.join (s.data.map jsonEscapeChar) ++ "\""

def itemJson (p : ProjItem) : String :=
  "\x7b\"t\":" ++ jsonStr p.t ++ ",\"u\":" ++ jsonStr p.u ++ "\x7d"

def modeStr : Mode → String
  | .fast => "fast"
  | .quality => "quality"

def styleStr : SummaryStyle → String
  | .balanced => "balanced"
  | .headlineFirst => "headline-first"
  | .keyPoints => "key-points"
  | .risks => "risks"

/-- Embeds `JSON.stringify` of the hashed object (version, lang, max, mode,
style) with the sorted
projected items. -/
def summPayloadJson (lang : String) (maxItems : Int) (mode : Mode) (style : SummaryStyle)
    (sorted : List ProjItem) : String :=
  "\x7b\"v\":" ++ jsonStr SUMM_V ++ ",\"lang\":" ++ jsonStr lang ++
  ",\"max\":" ++ toString maxItems ++ ",\"mode\":" ++ jsonStr (modeStr mode) ++
  ",\"style\":" ++ jsonStr (styleStr style) ++
  ",\"items\":[" ++ String.intercalate (",") (sorted.map itemJson) ++ "]\x7d"

/-- Embeds the projection `i` to `t = i.title`, `u = i.url` (the fields are required
on the backend item type, so the null-coalescing is the identity). -/
def projectItem (i : NewsItem) : ProjItem := ⟨i.title, i.url⟩

/-- The stable ascending sort of the projected items under a given
collator (JS `Array.sort` with the `localeCompare` comparator;
`List.mergeSort` is likewise stable). -/
def sortProjWith (le : ProjItem → ProjItem → Bool) (l : List ProjItem) : List ProjItem :=
  l.mergeSort le

/-- Embeds `makeSummCacheKey`, generic in the host collator `le` — the
total preorder that `localeCompare` induces on the `url + title` sort
keys. -/
def makeSummCacheKeyWith (le : ProjItem → ProjItem → Bool) (lang : String) (maxItems : Int)
    (mode : Mode) (style : SummaryStyle) (items : List NewsItem) : String :=
  let sorted := sortProjWith le (items.map projectItem)
  "summ:v" ++ SUMM_V ++ ":" ++ sha256Hex (summPayloadJson lang maxItems mode style sorted)

/-- Embeds `makeSummCacheKey` at the executable code-point collator
instance (used for concrete evaluation). -/
def makeSummCacheKey (lang : String) (maxItems : Int) (mode : Mode) (style : SummaryStyle)
    (items : List NewsItem) : String :=
  makeSummCacheKeyWith itemLe lang maxItems mode style items

/-! ### Orchestrator (`summarizeImpl`) -/

/-- The parsed request body (`SummarizeInput` of summarizeNews.ts), all
fields untrusted; `items` entries may be null. -/
structure SummarizeInput where
  items : Option (List (Option NewsItemIn))
  lang : Option String
  maxItems : Option Int
  mode : Option String
  summaryStyle : Option String
deriving DecidableEq, Repr

/-- Embeds `SummaryBlock` of `shared/summary.types.ts` (untrusted model
output, every field optional at runtime). -/
structure SummaryBlock where
  kind : Option String
  idx : Option JsNum
  title : Option String
  url : Option String
  source : Option String
  date : Option String
  facts : Option (List String)
deriving DecidableEq, Repr

/-- Embeds `SummaryJson` of `shared/summary.types.ts`, restricted to the fields
the orchestrator reads; untrusted, so every field optional. -/
structure SummaryJson where
  header : Option String
  intro : Option String
  outro : Option String
  blocks : Option (List SummaryBlock)
deriving DecidableEq, Repr

/-- Outcome of `buildPromptJson` + `callOpenAI` + `JSON.parse(raw)`:
`failure` covers an HTTP error, a timeout, empty content and malformed
JSON (all of which throw before `parsed` exists). -/
inductive ModelResult where
  | failure
  | success (j : SummaryJson)
deriving DecidableEq, Repr

/-- Embeds `SummCachePayload` of summarizeNews.ts — the unit cached and
returned. -/
structure SummCachePayload where
  mode : Mode
  style : SummaryStyle
  count : Nat
  summaryText : Option String
  header : Option String
  intro : Option String
  outro : Option String
  blocks : Option (List CacheBlock)
  «at» : String
deriving DecidableEq, Repr

/-- The HTTP response, as structured data (the JSON body fields that the
claims mention; auxiliary 400-body fields such as `example` and `hint`
are not modelled). -/
structure HttpResp where
  statusCode : Nat
  ok : Bool
  error : Option String
  cached : Option Bool
  payload : Option SummCachePayload
deriving DecidableEq, Repr

/-- The observable outcome of one request: the response plus the cache
write, if any (the write key is `makeSummCacheKey` over the same derived
arguments, with a fixed TTL of 300 seconds). -/
structure SummOutcome where
  resp : HttpResp
  cacheWrite : Option SummCachePayload
deriving DecidableEq, Repr

/-- Embeds `typeof t === "string" && t.trim().length > 0`. -/
def hasSummaryText (t : Option String) : Bool :=
  match t with
  | some s => !(trimJs s).isEmpty
  | none => false

/-- The non-empty contract checked on both the cache-hit and the
cache-write paths: non-blank `summaryText` or non-empty `blocks`. -/
def payloadHasContent (p : SummCachePayload) : Bool :=
  hasSummaryText p.summaryText || !(p.blocks.getD []).isEmpty

def noItemsMsg : String :=
  "No items provided. Pass \x27items: NewsItem[]\x27 from /search."

def noUsableMsg : String :=
  "No usable items after normalization. Each item must include: title, url, source, publishedAt."

def placeholderMsg : String :=
  "No valid articles to summarize for the selected query."

/-- Embeds `normalizeLang`. -/
def normalizeLang (lang : Option String) : String :=
  match lang with
  | none => "en"
  | some s => if s = "" then "en" else if s.length = 2 then toLowerJs s else "en"

/-- Embeds `clamp` (`Math.max(min, Math.min(max, n))`). -/
def clamp (n mn mx : Int) : Int := max mn (min mx n)

/-- One incoming entry is usable when it is non-null and `title`, `url`,
`source` and `publishedAt` are all present and truthy. -/
def usableItem (o : Option NewsItemIn) : Option NewsItem :=
  match o with
  | none => none
  | some i =>
    match i.title, i.url, i.source, i.publishedAt with
    | some t, some u, some s, some p =>
      if t ≠ "" && u ≠ "" && s ≠ "" && p ≠ "" then some ⟨t, u, s, p, i.description⟩
      else none
    | _, _, _, _ => none

/-- Embeds `compactItems` (`filter(usable).slice(0, limit)`). -/
def compactItems (items : List (Option NewsItemIn)) (limit : Nat) : List NewsItem :=
  (items.filterMap usableItem).take limit

/-- The style validation: a member of the closed enumeration, otherwise
`balanced`. -/
def styleFromInput (s : String) : SummaryStyle :=
  if s = "balanced" then .balanced
  else if s = "headline-first" then .headlineFirst
  else if s = "key-points" then .keyPoints
  else if s = "risks" then .risks
  else .balanced

/-- Embeds the minimal per-block normalization of model blocks for the FE:
`kind: b.kind, idx: b.idx ?? i + 1, title: b.title, url: b.url,
source: b.source ?? undefined, date: b.date ?? undefined, facts: b.facts
?? undefined}` — the minimal normalization of model blocks for the FE. -/
def mapQualityBlock (i : Nat) (b : SummaryBlock) : LooseBlock :=
  { kind := b.kind
    idx := some (b.idx.getD (JsNum.num (ratOfNat (i + 1))))
    title := b.title
    url := b.url
    source := b.source
    date := b.date
    facts := b.facts }

/-- Lines 262–301 of summarizeNews.ts: the quality path consumes the
model outcome inside a try/catch whose catch (transport error, JSON
parse error, or missing/empty `blocks`) falls back to the extractive
text; the fast path never consumes the model outcome. Returns
`(summaryText, blocks, header, intro, outro)`. -/
def computeContent (mode : Mode) (model : ModelResult) (fbText : String) :
    Option String × Option (List LooseBlock) × Option String × Option String × Option String :=
  match mode with
  | .fast => (some fbText, none, none, none, none)
  | .quality =>
    match model with
    | .failure => (some fbText, none, none, none, none)
    | .success j =>
      match j.blocks with
      | none => (some fbText, none, none, none, none)
      | some bs =>
        if bs.isEmpty then (some fbText, none, none, none, none)
        else (none, some (bs.mapIdx mapQualityBlock), j.header, j.intro, j.outro)

/-- Embeds `normalizeLang(parsed.lang)`. -/
def langOf (input : SummarizeInput) : String := normalizeLang input.lang

/-- Embeds `clamp(parsed.maxItems ?? 8, 1, 25)`. -/
def maxItemsOf (input : SummarizeInput) : Int := clamp (input.maxItems.getD 8) 1 25

/-- Embeds `parsed.mode === "quality" ? "quality" : "fast"`. -/
def modeOf (input : SummarizeInput) : Mode :=
  if input.mode = some ("quality") then .quality else .fast

/-- The validated style of the request. -/
def styleOf (input : SummarizeInput) : SummaryStyle :=
  styleFromInput (input.summaryStyle.getD ("balanced"))

/-- Embeds `Array.isArray(parsed.items) ? parsed.items : []`. -/
def incomingOf (input : SummarizeInput) : List (Option NewsItemIn) := input.items.getD []

/-- Embeds `compactItems(incoming, maxItems)`. -/
def itemsOf (input : SummarizeInput) : List NewsItem :=
  compactItems (incomingOf input) (maxItemsOf input).toNat

/-- The cache-hit computation: the stored payload (when the store is
configured and the debug-disable flag is off) has its `blocks` defaulted
to an array and is re-validated against the non-empty contract; an empty
hit is discarded. -/
def cacheHit (cacheEnabled : Bool) (cacheGet : Option SummCachePayload) :
    Option SummCachePayload :=
  match (if cacheEnabled then cacheGet else none) with
  | some c =>
    let p := { c with blocks := some (c.blocks.getD []) }
    if payloadHasContent p then some p else none
  | none => none

/-- Lines 261–333 of summarizeNews.ts: compute the content (model or
fallback), normalize the blocks, guarantee a non-empty `summaryText`
when the blocks are empty (placeholder as last resort), and assemble the
payload. -/
def assembledPayload (model : ModelResult) (now lang : String) (mode : Mode)
    (style : SummaryStyle) (incoming : List (Option NewsItemIn)) (maxN : Nat)
    (items : List NewsItem) : SummCachePayload :=
  let fbText := styleAwareFallback (items.map toSharedItem) lang style
  let c := computeContent mode model fbText
  let summaryText0 := c.1
  let safeBlocks := normalizeBlocksForCache c.2.1 style
  let haveBlocks := !(safeBlocks.getD []).isEmpty
  let summaryText :=
    if haveBlocks then summaryText0
    else if hasSummaryText summaryText0 then summaryText0
    else
      let fallbackBase := if items.length > 0 then items else compactItems incoming maxN
      let st := styleAwareFallback (fallbackBase.map toSharedItem) lang style
      if (trimJs st).isEmpty then some placeholderMsg else some st
  { mode := mode, style := style, count := items.length,
    summaryText := summaryText, header := c.2.2.1, intro := c.2.2.2.1, outro := c.2.2.2.2,
    blocks := safeBlocks, «at» := now }

/-- The cache-miss path: assemble the payload, write it to the cache
only if it carries content, respond 200 with `cached:false`. -/
def computeAndRespond (cacheEnabled : Bool) (model : ModelResult) (now lang : String)
    (mode : Mode) (style : SummaryStyle) (incoming : List (Option NewsItemIn))
    (maxN : Nat) (items : List NewsItem) : SummOutcome :=
  let payload := assembledPayload model now lang mode style incoming maxN items
  let cacheWrite := if cacheEnabled && payloadHasContent payload then some payload else none
  { resp := { statusCode := 200, ok := true, error := none,
              cached := some false, payload := some payload },
    cacheWrite := cacheWrite }

/-- Embeds `summarizeImpl`. Effects are explicit: `cacheEnabled` models
`upstash && !DISABLE_CACHE`, `cacheGet` the (already JSON-parsed) stored
value under the derived key, `model` the model-call outcome, `now` the
clock. CORS, auth and the outermost catch-all (which can only fire on a
malformed request body, handled before this model starts) are request
plumbing and are not modelled. -/
def summarizeImpl (cacheEnabled : Bool) (cacheGet : Option SummCachePayload)
    (model : ModelResult) (now : String) (input : SummarizeInput) : SummOutcome :=
  if (incomingOf input).isEmpty then
    { resp := { statusCode := 400, ok := false, error := some noItemsMsg,
                cached := none, payload := none },
      cacheWrite := none }
  else if (itemsOf input).isEmpty then
    { resp := { statusCode := 400, ok := false, error := some noUsableMsg,
                cached := none, payload := none },
      cacheWrite := none }
  else
    match cacheHit cacheEnabled cacheGet with
    | some p =>
      { resp := { statusCode := 200, ok := true, error := none,
                  cached := some true, payload := some p },
        cacheWrite := none }
    | none =>
      computeAndRespond cacheEnabled model now (langOf input) (modeOf input)
        (styleOf input) (incomingOf input) (maxItemsOf input).toNat (itemsOf input)

/-! ### Claim-facing auxiliary definitions -/

/-- The quality-path failure condition of the claims: the model call
threw, the raw output failed to parse as JSON (both `ModelResult.failure`),
or the parsed object has no non-empty `blocks` array. -/
def qualityFailed : ModelResult → Bool
  | .failure => true
  | .success j => (j.blocks.getD []).isEmpty

/-- The header line of a multi-line text (up to the first newline). -/
def firstLine (s : String) : String := ⟨s.data.takeWhile (fun c => c != '\n')⟩

/-- The `idx` candidates for which the normalizer defaults to the 1-based
position: missing, non-finite, or ≤ 0. -/
def idxDefaulted : Option JsNum → Bool
  | some (.num q) => decide (q ≤ 0)
  | some _ => true
  | none => true

/-- A contentless payload (used to exercise the stale-cache self-healing
path). -/
def emptyPayload : SummCachePayload :=
  { mode := .fast, style := .balanced, count := 0, summaryText := none,
    header := none, intro := none, outro := none, blocks := none, «at» := "" }

/-- Spec-side title clamping (§4.4): split on whitespace, keep the first
`n` words, append an ellipsis marker if truncated (untruncated titles are
kept verbatim). -/
def specClampTitle (title : String) (n : Nat) : String :=
  let words := jsWords title
  if words.length ≤ n then title
  else String.intercalate (" ") (words.take n) ++ "…"

/-- Spec-side risks header (§4.4): `⚠ Risk scan ({lang}) — review of {n}
item(s):`. -/
def specRiskHeader (lang : String) (n : Nat) : String :=
  "⚠ Risk scan (" ++ lang ++ ") — review of " ++ toString n ++ " item(s):"

def specRiskFooter : String := "— Risk scan complete —"

/-- The risks line template exactly as the claim states it: a plain
U+26A0 marker, `⚠ [n] Title — Source » URL` (the source segment rendered
only when a source is present, per the optional `source` of §3). -/
def specRiskLineClaimed (i : Nat) (it : SharedNewsItem) : String :=
  "⚠ [" ++ toString (i + 1) ++ "] " ++ specClampTitle it.title 14 ++
    srcSuffix it.source ++ " » " ++ it.url

/-- The claimed risks output: header, blank line, at most 6 template
lines, blank line, footer. -/
def specRiskScanClaimed (items : List SharedNewsItem) (lang : String) : String :=
  specRiskHeader lang items.length ++ "\n\n" ++
    String.intercalate ("\n") ((items.take 6).mapIdx specRiskLineClaimed) ++
    "\n\n" ++ specRiskFooter

/-- The amended risks line template: the marker is U+26A0 followed by
the text variation selector U+FE0E (`⚠︎`), as emitted by `formatRisk`. -/
def specRiskLineAmended (i : Nat) (it : SharedNewsItem) : String :=
  "⚠︎ [" ++ toString (i + 1) ++ "] " ++ specClampTitle it.title 14 ++
    srcSuffix it.source ++ " » " ++ it.url

/-- The amended risks output. -/
def specRiskScanAmended (items : List SharedNewsItem) (lang : String) : String :=
  specRiskHeader lang items.length ++ "\n\n" ++
    String.intercalate ("\n") ((items.take 6).mapIdx specRiskLineAmended) ++
    "\n\n" ++ specRiskFooter

/-! ### Concrete fixtures for witnesses and counterexamples -/

/-- Two items whose `url+title` sort keys tie (`"a"+"bc" = "ab"+"c"`)
while the projections differ. -/
def tieItemA : NewsItem := ⟨"bc", "a", "S", "2024-01-01", none⟩

def tieItemB : NewsItem := ⟨"c", "ab", "S", "2024-01-01", none⟩

/-- Two items with distinct sort keys. -/
def keyItemA : NewsItem := ⟨"Alpha", "https://a.example/1", "A", "2024-01-01", none⟩

def keyItemB : NewsItem := ⟨"Beta", "https://b.example/2", "B", "2024-01-02", none⟩

/-- A candidate block with a usable URL and no `idx`. -/
def defaultIdxBlock : LooseBlock :=
  { kind := none, idx := none, title := some ("T"),
    url := some ("https://example.com/b"), source := none, date := none, facts := none }

/-- A candidate block with a usable URL and the finite, positive,
non-integral `idx` 3/2. -/
def halfIdxBlock : LooseBlock :=
  { kind := none, idx := some (.num ⟨3, 2, by decide, by decide⟩), title := some ("T"),
    url := some ("https://example.com/a"), source := none, date := none, facts := none }

/-- A candidate block whose URL is blank after trimming. -/
def blankUrlBlock : LooseBlock :=
  { kind := some ("risk"), idx := some (.num ⟨1, 1, by decide, by decide⟩), title := some ("X"),
    url := some ("   "), source := some ("S"), date := none, facts := none }

def c2Blocks : List LooseBlock := [defaultIdxBlock, blankUrlBlock]

/-- Three usable items (the fast-mode scenario). -/
def summThreeItems : List SharedNewsItem :=
  [⟨"Alpha story", "https://a.example/1", some ("Alpha"), some ("2025-01-01")⟩,
   ⟨"Beta story", "https://b.example/2", some ("Beta"), some ("2025-01-02")⟩,
   ⟨"Gamma story", "https://c.example/3", some ("Gamma"), some ("2025-01-03")⟩]

/-- A single formatter item for the risks counterexample. -/
def riskItem : SharedNewsItem := ⟨"T", "https://u.example/1", some ("S"), some ("2024-01-01")⟩

/-- A fixed clock value for concrete runs. -/
def now0 : String := "2026-01-01T00:00:00.000Z"

/-- A parsed model output with no blocks. -/
def emptyModelJson : SummaryJson :=
  { header := none, intro := none, outro := none, blocks := none }

/-- A request body with three usable items. -/
def threeItemsIn : List (Option NewsItemIn) :=
  [some ⟨some ("Alpha story"), some ("https://a.example/1"), some ("Alpha"), some ("2025-01-01"), none⟩,
   some ⟨some ("Beta story"), some ("https://b.example/2"), some ("Beta"), some ("2025-01-02"), none⟩,
   some ⟨some ("Gamma story"), some ("https://c.example/3"), some ("Gamma"), some ("2025-01-03"), none⟩]

def inputFastThree : SummarizeInput :=
  { items := some threeItemsIn, lang := some ("en"), maxItems := some 5,
    mode := some ("fast"), summaryStyle := some ("balanced") }

def inputQualityThree : SummarizeInput :=
  { items := some threeItemsIn, lang := some ("en"), maxItems := some 5,
    mode := some ("quality"), summaryStyle := some ("key-points") }

def inputNoMode : SummarizeInput :=
  { items := some threeItemsIn, lang := some ("en"), maxItems := none,
    mode := none, summaryStyle := none }

def inputEmptyItems : SummarizeInput :=
  { items := some [], lang := some ("en"), maxItems := none,
    mode := none, summaryStyle := none }

/-- The unusable-items scenario: `items: [{title: "x"}]`. -/
def inputUnusable : SummarizeInput :=
  { items := some [some ⟨some ("x"), none, none, none, none⟩], lang := none, maxItems := none,
    mode := none, summaryStyle := none }

/-- Sanity check against the FIPS 180 test vector for "abc". -/
theorem sha256Hex_abc :
    sha256Hex ("abc") = "ba7816bf8f01cfea414140de5dae2223b00361a396177a9cb410ff61f20015ad" := by
  decide

/-! ### Helper lemmas: rationals -/

theorem ratOfNat_eq (n : Nat) : ratOfNat n = (n : ℚ) := by
  apply Rat.ext <;> simp [ratOfNat]

theorem ratOfNat_pos (n : Nat) : 0 < ratOfNat (n + 1) := by
  rw [ratOfNat_eq]
  positivity

/-! ### Helper lemmas: the block normalizer -/

theorem normEntry_url_ne {style : SummaryStyle} {i : Nat} {b : LooseBlock}
    (hg : goodUrl b = true) : (normEntry style i b).url ≠ "" := by
  intro h
  have : (trimJs (b.url.getD (""))).isEmpty = true := by
    rw [String.isEmpty_iff]
    simpa [normEntry] using h
  simp [goodUrl, this] at hg

theorem normEntry_idx_pos (style : SummaryStyle) (i : Nat) (b : LooseBlock) :
    0 < (normEntry style i b).idx := by
  unfold normEntry
  rcases b.idx with _ | jn
  · simpa using ratOfNat_pos i
  · rcases jn with _ | _ | _ | q
    · simpa using ratOfNat_pos i
    · simpa using ratOfNat_pos i
    · simpa using ratOfNat_pos i
    · by_cases hq : 0 < q
      · simp [hq]
      · simpa [hq] using ratOfNat_pos i

theorem normEntry_idx_default {style : SummaryStyle} {i : Nat} {b : LooseBlock}
    (hd : idxDefaulted b.idx = true) : (normEntry style i b).idx = ratOfNat (i + 1) := by
  unfold normEntry
  rcases hb : b.idx with _ | jn
  · rfl
  · rcases jn with _ | _ | _ | q
    · rfl
    · rfl
    · rfl
    · rw [hb] at hd
      simp only [idxDefaulted, decide_eq_true_eq] at hd
      simp [not_lt.mpr hd]

theorem normalizeGo_url_ne {style : SummaryStyle} :
    ∀ (bs : List LooseBlock) (i : Nat) (b : CacheBlock),
      b ∈ normalizeGo style bs i → b.url ≠ "" := by
  intro bs
  induction bs with
  | nil => intro i b hb; simp [normalizeGo] at hb
  | cons hd tl ih =>
    intro i b hb
    by_cases hg : goodUrl hd
    · rw [normalizeGo, if_pos hg] at hb
      rcases List.mem_cons.mp hb with h | h
      · subst h; exact normEntry_url_ne hg
      · exact ih _ _ h
    · rw [normalizeGo, if_neg hg] at hb
      exact ih _ _ hb

theorem normalizeGo_idx_pos {style : SummaryStyle} :
    ∀ (bs : List LooseBlock) (i : Nat) (b : CacheBlock),
      b ∈ normalizeGo style bs i → 0 < b.idx := by
  intro bs
  induction bs with
  | nil => intro i b hb; simp [normalizeGo] at hb
  | cons hd tl ih =>
    intro i b hb
    by_cases hg : goodUrl hd
    · rw [normalizeGo, if_pos hg] at hb
      rcases List.mem_cons.mp hb with h | h
      · subst h; exact normEntry_idx_pos style i hd
      · exact ih _ _ h
    · rw [normalizeGo, if_neg hg] at hb
      exact ih _ _ hb

theorem normalizeGo_length {style : SummaryStyle} :
    ∀ (bs : List LooseBlock) (i : Nat),
      (normalizeGo style bs i).length = (bs.filter goodUrl).length := by
  intro bs
  induction bs with
  | nil => intro i; rfl
  | cons hd tl ih =>
    intro i
    by_cases hg : goodUrl hd
    · rw [normalizeGo, if_pos hg, List.filter_cons, if_pos hg]
      simp [ih]
    · rw [normalizeGo, if_neg hg, List.filter_cons, if_neg hg]
      exact ih _

theorem normalizeGo_mem {style : SummaryStyle} :
    ∀ (bs : List LooseBlock) (k i : Nat) (b : LooseBlock),
      bs[k]? = some b → goodUrl b = true →
      normEntry style (i + k) b ∈ normalizeGo style bs i := by
  intro bs
  induction bs with
  | nil => intro k i b hk; simp at hk
  | cons hd tl ih =>
    intro k i b hk hg
    cases k with
    | zero =>
      rw [List.getElem?_cons_zero, Option.some.injEq] at hk
      subst hk
      rw [normalizeGo, if_pos hg]
      exact List.mem_cons_self _ _
    | succ k =>
      rw [List.getElem?_cons_succ] at hk
      have h := ih k (i + 1) b hk hg
      have harith : i + 1 + k = i + (k + 1) := by omega
      rw [harith] at h
      by_cases hghd : goodUrl hd
      · rw [normalizeGo, if_pos hghd]
        exact List.mem_cons_of_mem _ h
      · rw [normalizeGo, if_neg hghd]
        exact h

/-- C2: for every candidate block array and every style, no block whose
`url` is missing or empty after trimming appears in the output of
`normalizeBlocksForCache`; such entries are dropped (never defaulted),
and this is the only hard rejection rule — the output length equals the
number of candidates with a truthy trimmed `url`, and the output is
`undefined` exactly when no candidate has one. -/
theorem summ_C2 (bs : List LooseBlock) (style : SummaryStyle) :
    (∀ out, normalizeBlocksForCache (some bs) style = some out →
      (∀ b ∈ out, b.url ≠ "") ∧ out.length = (bs.filter goodUrl).length) ∧
    (normalizeBlocksForCache (some bs) style = none ↔ bs.filter goodUrl = []) := by
  constructor
  · intro out hout
    have hval : normalizeGo style bs 0 = out := by
      by_cases h : (normalizeGo style bs 0).isEmpty
      · simp [normalizeBlocksForCache, h] at hout
      · simpa [normalizeBlocksForCache, h] using hout
    subst hval
    exact ⟨fun b hb => normalizeGo_url_ne bs 0 b hb, normalizeGo_length bs 0⟩
  · by_cases h : (normalizeGo style bs 0).isEmpty
    · have hlen : (bs.filter goodUrl).length = 0 := by
        rw [← normalizeGo_length bs 0]
        simpa [List.isEmpty_iff] using congrArg List.length (List.isEmpty_iff.mp h)
      simp [normalizeBlocksForCache, h, List.length_eq_zero.mp hlen]
    · have hne : bs.filter goodUrl ≠ [] := by
        intro hnil
        have : (normalizeGo style bs 0).length = 0 := by
          rw [normalizeGo_length bs 0, hnil]; rfl
        exact h (by simpa [List.isEmpty_iff] using List.length_eq_zero.mp this)
      simp [normalizeBlocksForCache, h, hne]

/-- C2 witness: on a concrete two-candidate array (one usable URL, one
blank URL) the normalizer emits exactly the usable entry and no empty
URL. -/
theorem summ_C2_witness :
    (∀ b ∈ (normalizeBlocksForCache (some c2Blocks) .risks).getD [], b.url ≠ "") ∧
    ((normalizeBlocksForCache (some c2Blocks) .risks).getD []).length =
      (c2Blocks.filter goodUrl).length :=
  (summ_C2 c2Blocks .risks).1 ((normalizeBlocksForCache (some c2Blocks) .risks).getD [])
    (by decide)

/-- C8 counterexample: the claim "every output `idx` is a positive
integer" fails — a finite positive non-integral candidate `idx` (3/2) is
passed through unchanged by the normalizer. -/
theorem summ_C8_counterexample :
    ¬ (∀ (bs : List LooseBlock) (style : SummaryStyle) (out : List CacheBlock),
        normalizeBlocksForCache (some bs) style = some out →
        ∀ b ∈ out, 0 < b.idx ∧ b.idx.den = 1) := by
  intro h
  have hmem : normEntry .balanced 0 halfIdxBlock ∈ [normEntry .balanced 0 halfIdxBlock] :=
    List.mem_singleton.mpr rfl
  have h2 := h [halfIdxBlock] .balanced [normEntry .balanced 0 halfIdxBlock]
    (by decide) (normEntry .balanced 0 halfIdxBlock) hmem
  exact absurd h2.2 (by decide)

/-- C8 (amended): every `idx` in the normalizer output is positive (not
necessarily an integer — a finite positive candidate `idx` is passed
through); whenever the candidate `idx` is missing, non-finite, or ≤ 0,
the emitted entry carries `idx` equal to the 1-based
position in the input array. -/
theorem summ_C8_amended (bs : List LooseBlock) (style : SummaryStyle) :
    (∀ out, normalizeBlocksForCache (some bs) style = some out →
      ∀ b ∈ out, 0 < b.idx) ∧
    (∀ k b, bs[k]? = some b → goodUrl b = true → idxDefaulted b.idx = true →
      ∃ out, normalizeBlocksForCache (some bs) style = some out ∧
        normEntry style k b ∈ out ∧
        (normEntry style k b).idx = ((k + 1 : Nat) : ℚ)) := by
  constructor
  · intro out hout b hb
    have hval : normalizeGo style bs 0 = out := by
      by_cases h : (normalizeGo style bs 0).isEmpty
      · simp [normalizeBlocksForCache, h] at hout
      · simpa [normalizeBlocksForCache, h] using hout
    subst hval
    exact normalizeGo_idx_pos bs 0 b hb
  · intro k b hk hg hd
    have hmem : normEntry style k b ∈ normalizeGo style bs 0 := by
      simpa using normalizeGo_mem bs k 0 b hk hg
    have hne : (normalizeGo style bs 0).isEmpty = false := by
      cases hgo : normalizeGo style bs 0 with
      | nil => rw [hgo] at hmem; simp at hmem
      | cons x xs => simp
    refine ⟨normalizeGo style bs 0, ?_, hmem, ?_⟩
    · simp [normalizeBlocksForCache, hne]
    · rw [normEntry_idx_default hd, ratOfNat_eq]

/-- C8 witness: a concrete candidate with a usable URL and a missing
`idx` at position 0 is emitted with `idx` `1`. -/
theorem summ_C8_witness :
    goodUrl defaultIdxBlock = true ∧ idxDefaulted defaultIdxBlock.idx = true ∧
    ∃ out, normalizeBlocksForCache (some [defaultIdxBlock]) .balanced = some out ∧
      normEntry .balanced 0 defaultIdxBlock ∈ out ∧
      (normEntry .balanced 0 defaultIdxBlock).idx = ((0 + 1 : Nat) : ℚ) :=
  ⟨by decide, by decide,
    (summ_C8_amended [defaultIdxBlock] .balanced).2 0 defaultIdxBlock (by decide)
      (by decide) (by decide)⟩

/-! ### Helper lemmas: the lexicographic comparator and the stable sort -/

theorem strLeChars_trans :
    ∀ l₁ l₂ l₃ : List Char, strLeChars l₁ l₂ = true → strLeChars l₂ l₃ = true →
      strLeChars l₁ l₃ = true := by
  intro l₁
  induction l₁ with
  | nil => intro l₂ l₃ _ _; rfl
  | cons a as ih =>
    intro l₂ l₃ h12 h23
    cases l₂ with
    | nil => simp [strLeChars] at h12
    | cons b bs =>
      cases l₃ with
      | nil => simp [strLeChars] at h23
      | cons c cs =>
        simp only [strLeChars] at h12 h23 ⊢
        by_cases hab : a = b
        · subst hab
          by_cases hac : a = c
          · subst hac
            simp only [if_pos rfl] at h12 h23 ⊢
            exact ih bs cs h12 h23
          · simp only [if_pos rfl] at h12
            simpa [hac] using h23
        · by_cases hbc : b = c
          · subst hbc
            simpa [hab] using h12
          · simp only [if_neg hab, decide_eq_true_eq] at h12
            simp only [if_neg hbc, decide_eq_true_eq] at h23
            have hac : a ≠ c := by
              intro h
              subst h
              exact absurd (lt_trans h12 h23) (lt_irrefl a)
            simp only [if_neg hac, decide_eq_true_eq]
            exact lt_trans h12 h23

theorem strLeChars_total :
    ∀ l₁ l₂ : List Char, (strLeChars l₁ l₂ || strLeChars l₂ l₁) = true := by
  intro l₁
  induction l₁ with
  | nil => intro l₂; rfl
  | cons a as ih =>
    intro l₂
    cases l₂ with
    | nil => simp [strLeChars]
    | cons b bs =>
      simp only [strLeChars]
      by_cases hab : a = b
      · subst hab
        simpa using ih bs
      · rcases lt_or_gt_of_ne hab with h | h
        · simp [hab, h]
        · simp [hab, Ne.symm hab, h]

theorem strLeChars_eq_of_le_le :
    ∀ l₁ l₂ : List Char, strLeChars l₁ l₂ = true → strLeChars l₂ l₁ = true → l₁ = l₂ := by
  intro l₁
  induction l₁ with
  | nil =>
    intro l₂ _ h21
    cases l₂ with
    | nil => rfl
    | cons b bs => simp [strLeChars] at h21
  | cons a as ih =>
    intro l₂ h12 h21
    cases l₂ with
    | nil => simp [strLeChars] at h12
    | cons b bs =>
      simp only [strLeChars] at h12 h21
      by_cases hab : a = b
      · subst hab
        simp only [if_pos rfl] at h12 h21
        rw [ih bs h12 h21]
      · simp only [if_neg hab, decide_eq_true_eq] at h12
        simp only [if_neg (Ne.symm hab), decide_eq_true_eq] at h21
        exact absurd (lt_trans h12 h21) (lt_irrefl a)

/-- Permutation-invariance of a stable sort under an arbitrary
transitive and total comparator: if no two entries of the list tie
under `le` without being equal, the sorts of any two permutations
coincide. This is the property the cache key needs of the host
collator, which may tie on strings a code-point comparison would
distinguish. -/
theorem mergeSort_eq_of_perm (le : ProjItem → ProjItem → Bool)
    (htrans : ∀ a b c, le a b = true → le b c = true → le a c = true)
    (htot : ∀ a b, (le a b || le b a) = true)
    (l₁ l₂ : List ProjItem) (hp : l₁.Perm l₂)
    (hd : l₁.Pairwise fun a b => le a b = true → le b a = true → a = b) :
    l₁.mergeSort le = l₂.mergeSort le := by
  have s₁ : (l₁.mergeSort le).Pairwise fun a b => le a b = true :=
    List.sorted_mergeSort htrans htot l₁
  have s₂ : (l₂.mergeSort le).Pairwise fun a b => le a b = true :=
    List.sorted_mergeSort htrans htot l₂
  have p₁ : (l₁.mergeSort le).Perm l₁ := List.mergeSort_perm l₁ le
  have p₂ : (l₂.mergeSort le).Perm l₂ := List.mergeSort_perm l₂ le
  have hsym : ∀ {x y : ProjItem}, (le x y = true → le y x = true → x = y) →
      (le y x = true → le x y = true → y = x) := fun h h1 h2 => (h h2 h1).symm
  have hd₁ : (l₁.mergeSort le).Pairwise fun a b => le a b = true → le b a = true → a = b :=
    (p₁.pairwise_iff hsym).mpr hd
  have hperm : (l₁.mergeSort le).Perm (l₂.mergeSort le) := p₁.trans (hp.trans p₂.symm)
  have hd₂ : (l₂.mergeSort le).Pairwise fun a b => le a b = true → le b a = true → a = b :=
    (hperm.pairwise_iff hsym).mp hd₁
  have r₁ : (l₁.mergeSort le).Pairwise fun a b => le a b = true ∧ (le b a = true → a = b) :=
    (s₁.and hd₁).imp fun h => ⟨h.1, fun hba => h.2 h.1 hba⟩
  have r₂ : (l₂.mergeSort le).Pairwise fun a b => le a b = true ∧ (le b a = true → a = b) :=
    (s₂.and hd₂).imp fun h => ⟨h.1, fun hba => h.2 h.1 hba⟩
  exact @List.eq_of_perm_of_sorted _ (fun a b => le a b = true ∧ (le b a = true → a = b))
    ⟨fun a b h₁ h₂ => h₁.2 h₂.1⟩ _ _ hperm r₁ r₂

set_option maxRecDepth 8192 in
unseal List.merge List.mergeSort in
/-- C1 counterexample: the key is not permutation-invariant in general.
The comparator sorts by the concatenation `url + title`; the distinct
projections `{t:"bc", u:"a"}` and `{t:"c", u:"ab"}` have the equal sort
key `"abc"`, the stable sort keeps them in input order, and the two
orderings serialize — and hash — to different keys. -/
theorem summ_C1_counterexample :
    [tieItemA, tieItemB].Perm [tieItemB, tieItemA] ∧
    makeSummCacheKey ("en") 8 .fast .balanced [tieItemA, tieItemB] ≠
      makeSummCacheKey ("en") 8 .fast .balanced [tieItemB, tieItemA] :=
  ⟨List.Perm.swap tieItemB tieItemA [], by decide⟩

/-- C1 (amended): for every request, every permutation of `items`, and
every host collator `le` — any transitive and total comparator, which
is what ICU `localeCompare` induces — the derived cache key is
identical, provided the collator ties on no two of the projected items
without their projections being equal. The proviso is necessary (see
the counterexample) and cannot be phrased as mere distinctness of the
`url + title` keys: a real collator may also tie on distinct strings
(canonical equivalents, collation-ignorable characters). -/
theorem summ_C1_amended (le : ProjItem → ProjItem → Bool)
    (htrans : ∀ a b c, le a b = true → le b c = true → le a c = true)
    (htot : ∀ a b, (le a b || le b a) = true)
    (lang : String) (maxItems : Int) (mode : Mode) (style : SummaryStyle)
    (l₁ l₂ : List NewsItem) (hp : l₁.Perm l₂)
    (hd : (l₁.map projectItem).Pairwise fun a b =>
      le a b = true → le b a = true → a = b) :
    makeSummCacheKeyWith le lang maxItems mode style l₁ =
      makeSummCacheKeyWith le lang maxItems mode style l₂ := by
  unfold makeSummCacheKeyWith sortProjWith
  rw [mergeSort_eq_of_perm le htrans htot (l₁.map projectItem) (l₂.map projectItem)
    (hp.map projectItem) hd]

/-- C1 witness: the code-point collator instance on two swapped items
whose sort keys do not tie, with transitivity and totality discharged
by the comparator lemmas. -/
theorem summ_C1_witness :
    (∀ a b c : ProjItem, itemLe a b = true → itemLe b c = true → itemLe a c = true) ∧
    (∀ a b : ProjItem, (itemLe a b || itemLe b a) = true) ∧
    [keyItemA, keyItemB].Perm [keyItemB, keyItemA] ∧
    ([keyItemA, keyItemB].map projectItem).Pairwise
      (fun a b => itemLe a b = true → itemLe b a = true → a = b) ∧
    makeSummCacheKeyWith itemLe ("en") 8 .fast .balanced [keyItemA, keyItemB] =
      makeSummCacheKeyWith itemLe ("en") 8 .fast .balanced [keyItemB, keyItemA] :=
  ⟨fun a b c h₁ h₂ => strLeChars_trans _ _ _ h₁ h₂,
    fun a b => strLeChars_total _ _,
    List.Perm.swap keyItemB keyItemA [],
    by decide,
    summ_C1_amended itemLe (fun a b c h₁ h₂ => strLeChars_trans _ _ _ h₁ h₂)
      (fun a b => strLeChars_total _ _) ("en") 8 .fast .balanced _ _
      (List.Perm.swap keyItemB keyItemA []) (by decide)⟩

/-! ### Helper lemmas: trimming and the extractive formatter -/

theorem mem_dropWhile_of_mem {α : Type} {p : α → Bool} {l : List α} {c : α}
    (hc : c ∈ l) (hw : p c = false) : c ∈ l.dropWhile p := by
  rw [← List.takeWhile_append_dropWhile p l] at hc
  rcases List.mem_append.mp hc with h | h
  · exact absurd (List.mem_takeWhile_imp h) (by simp [hw])
  · exact h

theorem trimJsList_ne_nil {l : List Char} {c : Char} (hc : c ∈ l)
    (hw : isJsWs c = false) : trimJsList l ≠ [] := by
  intro h
  unfold trimJsList at h
  rw [List.reverse_eq_nil_iff, List.dropWhile_eq_nil_iff] at h
  have h1 : c ∈ l.dropWhile isJsWs := mem_dropWhile_of_mem hc hw
  have h2 : c ∈ (l.dropWhile isJsWs).reverse := List.mem_reverse.mpr h1
  have := h c h2
  rw [hw] at this
  exact Bool.false_ne_true this

theorem trimJs_isEmpty_false {s : String} {c : Char} (hc : c ∈ s.data)
    (hw : isJsWs c = false) : (trimJs s).isEmpty = false := by
  rw [Bool.eq_false_iff]
  intro h
  rw [String.isEmpty_iff] at h
  have hdata : trimJsList s.data = [] := congrArg String.data h
  exact trimJsList_ne_nil hc hw hdata

/-- The extractive formatter never returns a blank string: its header
starts with a printable character for every style. -/
theorem styleAwareFallback_trim (items : List SharedNewsItem) (lang : String)
    (style : SummaryStyle) :
    (trimJs (styleAwareFallback items lang style)).isEmpty = false := by
  cases style
  case balanced =>
    refine trimJs_isEmpty_false (c := 'B') ?_ (by decide)
    simp only [styleAwareFallback, String.data_append, List.append_assoc, List.mem_append]
    exact Or.inl (by decide)
  case headlineFirst =>
    refine trimJs_isEmpty_false (c := 'H') ?_ (by decide)
    simp only [styleAwareFallback, String.data_append, List.append_assoc, List.mem_append]
    exact Or.inl (by decide)
  case keyPoints =>
    refine trimJs_isEmpty_false (c := 'K') ?_ (by decide)
    simp only [styleAwareFallback, String.data_append, List.append_assoc, List.mem_append]
    exact Or.inl (by decide)
  case risks =>
    refine trimJs_isEmpty_false (c := '⚠') ?_ (by decide)
    simp only [styleAwareFallback, String.data_append, List.append_assoc, List.mem_append]
    exact Or.inl (by decide)

/-! ### Helper lemmas: the orchestrator -/

theorem computeContent_failed {model : ModelResult} (hf : qualityFailed model = true)
    (fb : String) :
    computeContent .quality model fb = (some fb, none, none, none, none) := by
  cases model with
  | failure => rfl
  | success j =>
    have hf' : (j.blocks.getD []).isEmpty = true := by simpa [qualityFailed] using hf
    cases hjb : j.blocks with
    | none => simp [computeContent, hjb]
    | some bs =>
      rw [hjb] at hf'
      simp only [Option.getD_some] at hf'
      simp [computeContent, hjb, hf']

theorem computeContent_fast (model : ModelResult) (fb : String) :
    computeContent .fast model fb = (some fb, none, none, none, none) := rfl

theorem hasSummaryText_some (s : String) :
    hasSummaryText (some s) = !(trimJs s).isEmpty := rfl

theorem placeholderMsg_trim : (trimJs placeholderMsg).isEmpty = false := by decide

/-- The payload assembled on the cache-miss path always satisfies the
non-empty contract: either the normalized blocks are non-empty, or a
non-blank `summaryText` is guaranteed (fallback text, or the literal
placeholder as a last resort). -/
theorem assembledPayload_content (model : ModelResult) (now lang : String) (mode : Mode)
    (style : SummaryStyle) (incoming : List (Option NewsItemIn)) (maxN : Nat)
    (items : List NewsItem) :
    payloadHasContent (assembledPayload model now lang mode style incoming maxN items) = true := by
  by_cases hb : ((normalizeBlocksForCache
      (computeContent mode model (styleAwareFallback (items.map toSharedItem) lang style)).2.1
      style).getD []).isEmpty
  · by_cases hst : hasSummaryText
      (computeContent mode model (styleAwareFallback (items.map toSharedItem) lang style)).1
    · simp [assembledPayload, payloadHasContent, hb, hst]
    · rw [Bool.not_eq_true] at hst
      by_cases htr : (trimJs (styleAwareFallback
          ((if 0 < items.length then items else compactItems incoming maxN).map toSharedItem)
          lang style)).isEmpty
      · simp [assembledPayload, payloadHasContent, hb, hst, htr, hasSummaryText_some,
          placeholderMsg_trim]
      · rw [Bool.not_eq_true] at htr
        simp [assembledPayload, payloadHasContent, hb, hst, htr, hasSummaryText_some]
  · rw [Bool.not_eq_true] at hb
    simp [assembledPayload, payloadHasContent, hb]

theorem assembledPayload_mode (model : ModelResult) (now lang : String) (mode : Mode)
    (style : SummaryStyle) (incoming : List (Option NewsItemIn)) (maxN : Nat)
    (items : List NewsItem) :
    (assembledPayload model now lang mode style incoming maxN items).mode = mode := rfl

theorem cacheHit_none (ce : Bool) : cacheHit ce none = none := by
  cases ce <;> rfl

theorem cacheHit_content {ce : Bool} {cg : Option SummCachePayload} {p : SummCachePayload}
    (h : cacheHit ce cg = some p) : payloadHasContent p = true := by
  unfold cacheHit at h
  cases hcg : (if ce then cg else none) with
  | none => rw [hcg] at h; cases h
  | some c =>
    rw [hcg] at h
    by_cases hc : payloadHasContent { c with blocks := some (c.blocks.getD []) }
    · simp only [hc, if_true, Option.some.injEq] at h
      rw [← h]
      exact hc
    · simp [hc] at h

theorem cacheHit_miss {c : SummCachePayload}
    (h : payloadHasContent { c with blocks := some (c.blocks.getD []) } = false) (ce : Bool) :
    cacheHit ce (some c) = cacheHit ce none := by
  cases ce with
  | false => rfl
  | true => simp [cacheHit, h]

theorem incoming_ne_of_items {input : SummarizeInput}
    (h : (itemsOf input).isEmpty = false) : (incomingOf input).isEmpty = false := by
  by_cases hi : (incomingOf input).isEmpty
  · exfalso
    have : itemsOf input = [] := by
      unfold itemsOf compactItems
      rw [List.isEmpty_iff.mp hi]
      simp
    rw [this] at h
    cases h
  · exact Bool.not_eq_true _ |>.mp hi

theorem summarizeImpl_eq_compute {ce : Bool} {cg : Option SummCachePayload}
    {model : ModelResult} {now : String} {input : SummarizeInput}
    (h1 : (incomingOf input).isEmpty = false) (h2 : (itemsOf input).isEmpty = false)
    (h3 : cacheHit ce cg = none) :
    summarizeImpl ce cg model now input =
      computeAndRespond ce model now (langOf input) (modeOf input) (styleOf input)
        (incomingOf input) (maxItemsOf input).toNat (itemsOf input) := by
  unfold summarizeImpl
  rw [h1, h2, h3]
  simp

theorem impl_cached_false {ce : Bool} {cg : Option SummCachePayload} {model : ModelResult}
    {now : String} {input : SummarizeInput}
    (hc : (summarizeImpl ce cg model now input).resp.cached = some false) :
    (incomingOf input).isEmpty = false ∧ (itemsOf input).isEmpty = false ∧
      cacheHit ce cg = none := by
  by_cases h1 : (incomingOf input).isEmpty
  · rw [summarizeImpl] at hc
    simp [h1] at hc
  · rw [Bool.not_eq_true] at h1
    by_cases h2 : (itemsOf input).isEmpty
    · rw [summarizeImpl] at hc
      simp [h1, h2] at hc
    · rw [Bool.not_eq_true] at h2
      cases h3 : cacheHit ce cg with
      | some q =>
        rw [summarizeImpl, h1, h2, h3] at hc
        simp at hc
      | none => exact ⟨h1, h2, rfl⟩

/-- On the quality path, when the model call failed (or its output did
not parse into non-empty blocks), the assembled payload is exactly the
fallback payload: extractive `summaryText`, no blocks, no
header/intro/outro. -/
theorem assembledPayload_qfailed {model : ModelResult} (hf : qualityFailed model = true)
    (now lang : String) (style : SummaryStyle) (incoming : List (Option NewsItemIn))
    (maxN : Nat) (items : List NewsItem) :
    assembledPayload model now lang .quality style incoming maxN items =
      { mode := .quality, style := style, count := items.length,
        summaryText := some (styleAwareFallback (items.map toSharedItem) lang style),
        header := none, intro := none, outro := none, blocks := none, «at» := now } := by
  have hfb := styleAwareFallback_trim (items.map toSharedItem) lang style
  simp [assembledPayload, computeContent_failed hf, normalizeBlocksForCache,
    hasSummaryText_some, hfb]

/-- On the fast path the assembled payload is the fallback payload. -/
theorem assembledPayload_fast (model : ModelResult) (now lang : String)
    (style : SummaryStyle) (incoming : List (Option NewsItemIn)) (maxN : Nat)
    (items : List NewsItem) :
    assembledPayload model now lang .fast style incoming maxN items =
      { mode := .fast, style := style, count := items.length,
        summaryText := some (styleAwareFallback (items.map toSharedItem) lang style),
        header := none, intro := none, outro := none, blocks := none, «at» := now } := by
  have hfb := styleAwareFallback_trim (items.map toSharedItem) lang style
  simp [assembledPayload, computeContent_fast, normalizeBlocksForCache,
    hasSummaryText_some, hfb]

/-- The fast path never consumes the model outcome. -/
theorem computeAndRespond_fast (ce : Bool) (m₁ m₂ : ModelResult) (now lang : String)
    (style : SummaryStyle) (incoming : List (Option NewsItemIn)) (maxN : Nat)
    (items : List NewsItem) :
    computeAndRespond ce m₁ now lang .fast style incoming maxN items =
      computeAndRespond ce m₂ now lang .fast style incoming maxN items := rfl

/-- C3: every assembled (cache-miss, `cached:false`) response payload of
the orchestrator satisfies the non-empty contract — non-blank
`summaryText` or non-empty `blocks` — for every request, model outcome,
and cache configuration; a payload satisfying neither is replaced by the
placeholder before this point, so an empty success is impossible. -/
theorem summ_C3 (ce : Bool) (cg : Option SummCachePayload) (model : ModelResult)
    (now : String) (input : SummarizeInput) (p : SummCachePayload)
    (hc : (summarizeImpl ce cg model now input).resp.cached = some false)
    (hp : (summarizeImpl ce cg model now input).resp.payload = some p) :
    payloadHasContent p = true := by
  obtain ⟨h1, h2, h3⟩ := impl_cached_false hc
  rw [summarizeImpl_eq_compute h1 h2 h3] at hp
  have hpe : assembledPayload model now (langOf input) (modeOf input) (styleOf input)
      (incomingOf input) (maxItemsOf input).toNat (itemsOf input) = p := by
    simpa [computeAndRespond] using hp
  rw [← hpe]
  exact assembledPayload_content _ _ _ _ _ _ _ _

/-- C3 witness: a concrete valid three-item fast request yields a
payload satisfying the contract. -/
theorem summ_C3_witness :
    payloadHasContent
      (((summarizeImpl false none .failure now0 inputFastThree).resp.payload).getD
        emptyPayload) = true :=
  summ_C3 false none .failure now0 inputFastThree _ (by decide) (by decide)

/-- C4: for every quality-mode request that passes validation, if the
model call fails, its output fails to parse, or the parsed object has no
non-empty `blocks`, the orchestrator responds 200 (`ok:true`, no error
object) with the non-empty extractive-formatter text as `summaryText`;
the failure is never surfaced as a hard error. (Stated on the cache-miss
path: a cache hit never invokes the model at all.) -/
theorem summ_C4 (ce : Bool) (model : ModelResult) (now : String) (input : SummarizeInput)
    (hq : modeOf input = Mode.quality) (hf : qualityFailed model = true)
    (hv : (itemsOf input).isEmpty = false) :
    (summarizeImpl ce none model now input).resp =
      { statusCode := 200, ok := true, error := none, cached := some false,
        payload := some
          { mode := Mode.quality, style := styleOf input, count := (itemsOf input).length,
            summaryText := some (styleAwareFallback ((itemsOf input).map toSharedItem)
                                  (langOf input) (styleOf input)),
            header := none, intro := none, outro := none, blocks := none, «at» := now } } ∧
    hasSummaryText (some (styleAwareFallback ((itemsOf input).map toSharedItem)
      (langOf input) (styleOf input))) = true := by
  constructor
  · rw [summarizeImpl_eq_compute (incoming_ne_of_items hv) hv (cacheHit_none ce)]
    rw [computeAndRespond]
    rw [hq, assembledPayload_qfailed hf]
  · rw [hasSummaryText_some, styleAwareFallback_trim]
    rfl

/-- C4 witness: a concrete quality request with a failing model call. -/
theorem summ_C4_witness :
    modeOf inputQualityThree = Mode.quality ∧ qualityFailed .failure = true ∧
    (itemsOf inputQualityThree).isEmpty = false ∧
    ((summarizeImpl false none .failure now0 inputQualityThree).resp =
      { statusCode := 200, ok := true, error := none, cached := some false,
        payload := some
          { mode := Mode.quality, style := styleOf inputQualityThree,
            count := (itemsOf inputQualityThree).length,
            summaryText := some (styleAwareFallback
              ((itemsOf inputQualityThree).map toSharedItem)
              (langOf inputQualityThree) (styleOf inputQualityThree)),
            header := none, intro := none, outro := none, blocks := none, «at» := now0 } } ∧
      hasSummaryText (some (styleAwareFallback ((itemsOf inputQualityThree).map toSharedItem)
        (langOf inputQualityThree) (styleOf inputQualityThree))) = true) :=
  ⟨by decide, by decide, by decide,
    summ_C4 false .failure now0 inputQualityThree (by decide) (by decide) (by decide)⟩

/-- C5: for every `mode:"fast"` request the model outcome is never
consumed (the response is the same for any two outcomes), and on the
cache-miss path the 200 payload carries `summaryText` equal to the
extractive-formatter output with `blocks` absent; moreover for style
`balanced`, lang `en` and 3 usable items the header line of that text is
exactly `Balanced summary (en) — 3 item(s):`. -/
theorem summ_C5 (ce : Bool) (cg : Option SummCachePayload) (model : ModelResult)
    (now : String) (input : SummarizeInput) (hm : input.mode = some ("fast"))
    (hv : (itemsOf input).isEmpty = false) :
    (∀ m₁ m₂, summarizeImpl ce cg m₁ now input = summarizeImpl ce cg m₂ now input) ∧
    (summarizeImpl ce none model now input).resp =
      { statusCode := 200, ok := true, error := none, cached := some false,
        payload := some
          { mode := Mode.fast, style := styleOf input, count := (itemsOf input).length,
            summaryText := some (styleAwareFallback ((itemsOf input).map toSharedItem)
                                  (langOf input) (styleOf input)),
            header := none, intro := none, outro := none, blocks := none, «at» := now } } ∧
    firstLine (styleAwareFallback summThreeItems ("en") .balanced) =
      "Balanced summary (en) — 3 item(s):" := by
  have hmode : modeOf input = Mode.fast := by
    unfold modeOf
    rw [hm]
    decide
  refine ⟨?_, ?_, by decide⟩
  · intro m₁ m₂
    unfold summarizeImpl
    rw [hmode, computeAndRespond_fast ce m₁ m₂ now (langOf input) (styleOf input)
      (incomingOf input) (maxItemsOf input).toNat (itemsOf input)]
  · rw [summarizeImpl_eq_compute (incoming_ne_of_items hv) hv (cacheHit_none ce)]
    rw [computeAndRespond]
    rw [hmode, assembledPayload_fast]

/-- C5 witness: the concrete fast-mode three-item request. -/
theorem summ_C5_witness :
    inputFastThree.mode = some ("fast") ∧ (itemsOf inputFastThree).isEmpty = false ∧
    ((∀ m₁ m₂, summarizeImpl true none m₁ now0 inputFastThree =
        summarizeImpl true none m₂ now0 inputFastThree) ∧
     (summarizeImpl true none .failure now0 inputFastThree).resp =
      { statusCode := 200, ok := true, error := none, cached := some false,
        payload := some
          { mode := Mode.fast, style := styleOf inputFastThree,
            count := (itemsOf inputFastThree).length,
            summaryText := some (styleAwareFallback
              ((itemsOf inputFastThree).map toSharedItem)
              (langOf inputFastThree) (styleOf inputFastThree)),
            header := none, intro := none, outro := none, blocks := none, «at» := now0 } } ∧
     firstLine (styleAwareFallback summThreeItems ("en") .balanced) =
       "Balanced summary (en) — 3 item(s):") :=
  ⟨rfl, by decide, summ_C5 true none .failure now0 inputFastThree rfl (by decide)⟩

/-- C6: the non-empty contract is invariant at the cache boundary — a
payload is written (`setex`) only if it has content; a `cached:true`
response always carries a payload with content; and a stored payload
without content is treated exactly as a cache miss. -/
theorem summ_C6 :
    (∀ (ce : Bool) (cg : Option SummCachePayload) (model : ModelResult) (now : String)
        (input : SummarizeInput) (p : SummCachePayload),
      (summarizeImpl ce cg model now input).cacheWrite = some p →
      payloadHasContent p = true) ∧
    (∀ (ce : Bool) (cg : Option SummCachePayload) (model : ModelResult) (now : String)
        (input : SummarizeInput) (p : SummCachePayload),
      (summarizeImpl ce cg model now input).resp.cached = some true →
      (summarizeImpl ce cg model now input).resp.payload = some p →
      payloadHasContent p = true) ∧
    (∀ (ce : Bool) (c : SummCachePayload) (model : ModelResult) (now : String)
        (input : SummarizeInput),
      payloadHasContent { c with blocks := some (c.blocks.getD []) } = false →
      summarizeImpl ce (some c) model now input = summarizeImpl ce none model now input) := by
  refine ⟨?_, ?_, ?_⟩
  · intro ce cg model now input p h
    by_cases h1 : (incomingOf input).isEmpty
    · rw [summarizeImpl] at h
      simp [h1] at h
    · rw [Bool.not_eq_true] at h1
      by_cases h2 : (itemsOf input).isEmpty
      · rw [summarizeImpl] at h
        simp [h1, h2] at h
      · rw [Bool.not_eq_true] at h2
        cases h3 : cacheHit ce cg with
        | some q =>
          rw [summarizeImpl, h1, h2, h3] at h
          simp at h
        | none =>
          rw [summarizeImpl_eq_compute h1 h2 h3] at h
          simp only [computeAndRespond] at h
          by_cases hcond : (ce && payloadHasContent
            (assembledPayload model now (langOf input) (modeOf input) (styleOf input)
              (incomingOf input) (maxItemsOf input).toNat (itemsOf input)))
          · simp only [hcond, if_true, Option.some.injEq] at h
            rw [← h]
            exact assembledPayload_content _ _ _ _ _ _ _ _
          · simp [hcond] at h
  · intro ce cg model now input p hc hp
    by_cases h1 : (incomingOf input).isEmpty
    · rw [summarizeImpl] at hc
      simp [h1] at hc
    · rw [Bool.not_eq_true] at h1
      by_cases h2 : (itemsOf input).isEmpty
      · rw [summarizeImpl] at hc
        simp [h1, h2] at hc
      · rw [Bool.not_eq_true] at h2
        cases h3 : cacheHit ce cg with
        | some q =>
          rw [summarizeImpl, h1, h2, h3] at hp
          simp only [Bool.false_eq_true, if_false, Option.some.injEq] at hp
          rw [← hp]
          exact cacheHit_content h3
        | none =>
          rw [summarizeImpl_eq_compute h1 h2 h3] at hc
          simp [computeAndRespond] at hc
  · intro ce c model now input h
    unfold summarizeImpl
    rw [cacheHit_miss h ce]

/-- C6 witness: a contentless stored payload is ignored — the response
equals the cache-miss response. -/
theorem summ_C6_witness :
    payloadHasContent { emptyPayload with blocks := some (emptyPayload.blocks.getD []) } = false ∧
    summarizeImpl true (some emptyPayload) .failure now0 inputFastThree =
      summarizeImpl true none .failure now0 inputFastThree :=
  ⟨by decide,
    summ_C6.2.2 true emptyPayload .failure now0 inputFastThree (by decide)⟩

/-- C7: input validation produces two distinct 400 errors — an empty
incoming list yields the message directing the caller to pass items from
`/search`, while a non-empty list with zero usable items yields the
distinct message naming the required fields `title, url, source,
publishedAt`. -/
theorem summ_C7 :
    (∀ (ce : Bool) (cg : Option SummCachePayload) (model : ModelResult) (now : String)
        (input : SummarizeInput), (incomingOf input).isEmpty = true →
      (summarizeImpl ce cg model now input).resp.statusCode = 400 ∧
      (summarizeImpl ce cg model now input).resp.error = some noItemsMsg) ∧
    (∀ (ce : Bool) (cg : Option SummCachePayload) (model : ModelResult) (now : String)
        (input : SummarizeInput), (incomingOf input).isEmpty = false →
      (itemsOf input).isEmpty = true →
      (summarizeImpl ce cg model now input).resp.statusCode = 400 ∧
      (summarizeImpl ce cg model now input).resp.error = some noUsableMsg) ∧
    noItemsMsg ≠ noUsableMsg ∧
    "items".data <:+: noItemsMsg.data ∧
    "/search".data <:+: noItemsMsg.data ∧
    "title, url, source, publishedAt".data <:+: noUsableMsg.data := by
  refine ⟨?_, ?_, by decide, by decide, by decide, by decide⟩
  · intro ce cg model now input h
    rw [summarizeImpl, h]
    exact ⟨rfl, rfl⟩
  · intro ce cg model now input h1 h2
    rw [summarizeImpl, h1, h2]
    exact ⟨rfl, rfl⟩

/-- C7 witness: the two concrete scenarios — `items: []` and
`items: [{title:"x"}]`. -/
theorem summ_C7_witness :
    (incomingOf inputEmptyItems).isEmpty = true ∧
    (summarizeImpl false none .failure now0 inputEmptyItems).resp.statusCode = 400 ∧
    (summarizeImpl false none .failure now0 inputEmptyItems).resp.error = some noItemsMsg ∧
    (incomingOf inputUnusable).isEmpty = false ∧
    (itemsOf inputUnusable).isEmpty = true ∧
    (summarizeImpl false none .failure now0 inputUnusable).resp.statusCode = 400 ∧
    (summarizeImpl false none .failure now0 inputUnusable).resp.error = some noUsableMsg :=
  ⟨by decide,
    (summ_C7.1 false none .failure now0 inputEmptyItems (by decide)).1,
    (summ_C7.1 false none .failure now0 inputEmptyItems (by decide)).2,
    by decide, by decide,
    (summ_C7.2.1 false none .failure now0 inputUnusable (by decide) (by decide)).1,
    (summ_C7.2.1 false none .failure now0 inputUnusable (by decide) (by decide)).2⟩

/-- C10: for every request whose `mode` is absent or anything other than
the exact string `"quality"`, the orchestrator runs the fast path: the
model outcome is never consumed, and every computed (`cached:false`)
payload reports mode `fast`. -/
theorem summ_C10 (ce : Bool) (cg : Option SummCachePayload) (now : String)
    (input : SummarizeInput) (hm : input.mode ≠ some ("quality")) :
    (∀ m₁ m₂, summarizeImpl ce cg m₁ now input = summarizeImpl ce cg m₂ now input) ∧
    (∀ (model : ModelResult) (p : SummCachePayload),
      (summarizeImpl ce cg model now input).resp.cached = some false →
      (summarizeImpl ce cg model now input).resp.payload = some p →
      p.mode = Mode.fast) := by
  have hmode : modeOf input = Mode.fast := by
    unfold modeOf
    rw [if_neg hm]
  constructor
  · intro m₁ m₂
    unfold summarizeImpl
    rw [hmode, computeAndRespond_fast ce m₁ m₂ now (langOf input) (styleOf input)
      (incomingOf input) (maxItemsOf input).toNat (itemsOf input)]
  · intro model p hc hp
    obtain ⟨h1, h2, h3⟩ := impl_cached_false hc
    rw [summarizeImpl_eq_compute h1 h2 h3] at hp
    have hpe : assembledPayload model now (langOf input) (modeOf input) (styleOf input)
        (incomingOf input) (maxItemsOf input).toNat (itemsOf input) = p := by
      simpa [computeAndRespond] using hp
    rw [← hpe, assembledPayload_mode]
    exact hmode

/-- C10 witness: a request without a `mode` field runs the fast path. -/
theorem summ_C10_witness :
    inputNoMode.mode ≠ some ("quality") ∧
    summarizeImpl false none .failure now0 inputNoMode =
      summarizeImpl false none (.success emptyModelJson) now0 inputNoMode ∧
    (((summarizeImpl false none .failure now0 inputNoMode).resp.payload).getD
      emptyPayload).mode = Mode.fast :=
  ⟨by decide,
    (summ_C10 false none now0 inputNoMode (by decide)).1 .failure (.success emptyModelJson),
    (summ_C10 false none now0 inputNoMode (by decide)).2 .failure
      (((summarizeImpl false none .failure now0 inputNoMode).resp.payload).getD emptyPayload)
      (by decide) (by decide)⟩

/-! ### The risks formatter against its spec template -/

theorem take_min_length {α : Type} (l : List α) (n : Nat) :
    l.take (min l.length n) = l.take n := by
  rw [min_comm, ← List.take_take, List.take_length]

/-- C9 counterexample: the formatter output on a concrete one-item list
differs from the claimed shape — the code emits the line marker `⚠︎`
(U+26A0 followed by the variation selector U+FE0E), not the plain `⚠`
(U+26A0) of the claimed template `⚠ [n] Title — Source » URL`. -/
theorem summ_C9_counterexample :
    styleAwareFallback [riskItem] ("en") .risks ≠ specRiskScanClaimed [riskItem] ("en") := by
  decide

/-- C9 (amended): for every non-empty item list, the risks output is
exactly the header `⚠ Risk scan ({lang}) — review of {n} item(s):`, a
blank line, at most 6 lines of the form `⚠︎ [n] Title — Source » URL`
(marker U+26A0 U+FE0E; title clamped to its first 14
whitespace-separated words with an ellipsis appended when truncated), a
blank line, and the footer `— Risk scan complete —`. -/
theorem summ_C9_amended (items : List SharedNewsItem) (lang : String)
    (_hne : items ≠ []) :
    styleAwareFallback items lang .risks = specRiskScanAmended items lang := by
  simp only [styleAwareFallback, specRiskScanAmended, specRiskHeader, specRiskFooter]
  rw [take_min_length items 6]
  rfl

/-- C9 witness: the amended template at a concrete one-item list. -/
theorem summ_C9_witness :
    ([riskItem] : List SharedNewsItem) ≠ [] ∧
    styleAwareFallback [riskItem] ("en") .risks = specRiskScanAmended [riskItem] ("en") :=
  ⟨by decide, summ_C9_amended [riskItem] ("en") (by decide)⟩

end NewsAgent
